import Mathlib

/-!
Shallow embedding of the CCometixLine status-line pipeline, centered on the
networked NewApi cost segment (src/core/segments/newapi_cost.rs), the CLI
override logic (src/main.rs, src/cli.rs), and — modelled from the spec where
the source file is not in the repository snapshot — the configuration store,
the aggregator and the renderer.

Numeric convention: the Rust source computes the cost as an `f64`; the
embedding uses exact rationals (`ℚ`). For every quota value appearing in the
claims the two agree (the comparisons against the 0.01 threshold and the
two-decimal renderings are identical), and `{:.2}` formatting is modelled as
round-half-to-even at the second decimal, which coincides with Rust on every
exactly representable tie.
-/

/-- Model of `serde_json::Value`. Integral JSON numbers (serde's `u64`/`i64`
representations) are `int`; non-integral numbers are `float`. -/
inductive Json where
  | null
  | bool (b : Bool)
  | int (n : Int)
  | float (q : ℚ)
  | str (s : String)
  | arr (xs : List Json)
  | obj (fields : List (String × Json))

/-- `serde_json::Value::as_str`. -/
def Json.as_str : Json → Option String
  | .str s => some s
  | _ => none

/-- `serde_json::Value::as_bool`. -/
def Json.as_bool : Json → Option Bool
  | .bool b => some b
  | _ => none

/-- `serde_json::Value::as_u64`: an integral number in `[0, 2^64)`. -/
def Json.as_u64 : Json → Option Nat
  | .int n => if 0 ≤ n ∧ n < 2 ^ 64 then some n.toNat else none
  | _ => none

/-- `serde_json::Value::as_i64`: an integral number in `[-2^63, 2^63)`. -/
def Json.as_i64 : Json → Option Int
  | .int n => if -(2 ^ 63) ≤ n ∧ n < 2 ^ 63 then some n else none
  | _ => none

/-- Field lookup on a JSON object (`json["key"]` on the expected shapes). -/
def Json.getField (j : Json) (key : String) : Option Json :=
  match j with
  | .obj fields => fields.lookup key
  | _ => none

/-- Modelled from the spec: `SegmentId`, the closed enumeration of segment
kinds; the source file declaring it (src/config.rs) is not in the snapshot.
`NewApiCost` is the identity the cost segment reports (newapi_cost.rs). -/
inductive SegmentId where
  | Git
  | Model
  | Usage
  | Directory
  | NewApiCost
deriving DecidableEq, BEq, Repr

/-- `SegmentData { primary, secondary, metadata }` (spec §3, used by
newapi_cost.rs). Metadata is a string-to-string map. -/
structure SegmentData where
  primary : String
  secondary : String
  metadata : List (String × String)
deriving DecidableEq, Repr

/-- Modelled from the spec: the parsed stdin snapshot (`InputData`). Its
fields are not consumed by the cost segment (`collect` ignores its input), so
it is opaque here. -/
structure InputData

/-- Modelled from the spec: one `SegmentConfig` entry — identity, enabled
flag, and a loosely-typed string-keyed option map. The map is modelled as a
function to capture `HashMap` lookup/insert semantics. -/
structure SegmentConfig where
  id : SegmentId
  enabled : Bool
  options : String → Option Json

/-- Modelled from the spec: the theme — a separator plus styling rules keyed
by segment identity, applied per result at render time. -/
structure Theme where
  separator : String
  style : SegmentId → SegmentData → String

/-- Modelled from the spec: the persisted configuration — the active theme
and the ordered list of segment entries. -/
structure Config where
  theme : Theme
  segments : List SegmentConfig

/-- The `NewApiCostSegment` struct (newapi_cost.rs lines 27-34). -/
structure NewApiCostSegment where
  base_url : Option String
  user_token : Option String
  user_id : Option String
  token_name : Option String
  provider : Option String
deriving DecidableEq, Repr

/-- `NewApiCostSegment::new` (newapi_cost.rs lines 43-51). -/
def NewApiCostSegment.new : NewApiCostSegment :=
  ⟨none, none, none, none, none⟩

/-- `NewApiStatData` (newapi_cost.rs lines 17-24). -/
structure NewApiStatData where
  quota : Int
  rpm : Option Int
  tpm : Option Int
deriving DecidableEq, Repr

/-- `NewApiStatResponse` (newapi_cost.rs lines 8-14). -/
structure NewApiStatResponse where
  success : Bool
  message : String
  data : NewApiStatData
deriving DecidableEq, Repr

/-- Round a rational to the nearest integer, ties to even — the rounding the
Rust `{:.2}` float formatter applies to the (exactly representable) value it
is given. -/
def roundHalfEven (q : ℚ) : Int :=
  let f := q.floor
  let r := q - (f : ℚ)
  if r < 1 / 2 then f
  else if 1 / 2 < r then f + 1
  else if f % 2 = 0 then f else f + 1

/-- Left-pad a sub-hundred remainder to two digits. -/
def pad2 (m : Nat) : String :=
  if m < 10 then "0" ++ toString m else toString m

/-- `format!("{:.2}", c)`: the number rendered with exactly two decimal
places. -/
def fmt2 (c : ℚ) : String :=
  let n : Int := roundHalfEven (c * 100)
  let sign := if n < 0 then "-" else ""
  let a := n.natAbs
  sign ++ toString (a / 100) ++ "." ++ pad2 (a % 100)

/-- The primary-text computation of `NewApiCostSegment::collect`
(newapi_cost.rs lines 199-203): `if cost == 0.0 || cost < 0.01 { "¥0" }
else { format!("¥{:.2}", cost) }`. -/
def costPrimary (cost : ℚ) : String :=
  if cost = 0 ∨ cost < 1 / 100 then "¥0" else "¥" ++ fmt2 cost

/-- The cost derived from a returned quota (newapi_cost.rs line 173):
`quota as f64 / 500000.0`. -/
def quotaCost (quota : Int) : ℚ :=
  (quota : ℚ) / 500000

/-- A chrono `DateTime<Local>` under a fixed UTC offset: calendar day (as a
day count since the local epoch day), time-of-day components, and the offset
in seconds east of UTC. The `with_*` component setters below mirror chrono's
`Timelike` setters, which validate their argument's range and return an
optional value. -/
structure LocalDateTime where
  day : Int
  hour : Nat
  minute : Nat
  second : Nat
  nanosecond : Nat
  offset : Int
deriving DecidableEq, Repr

/-- chrono `Timelike::with_hour`. -/
def LocalDateTime.with_hour (dt : LocalDateTime) (h : Nat) : Option LocalDateTime :=
  if h ≤ 23 then some { dt with hour := h } else none

/-- chrono `Timelike::with_minute`. -/
def LocalDateTime.with_minute (dt : LocalDateTime) (m : Nat) : Option LocalDateTime :=
  if m ≤ 59 then some { dt with minute := m } else none

/-- chrono `Timelike::with_second`. -/
def LocalDateTime.with_second (dt : LocalDateTime) (s : Nat) : Option LocalDateTime :=
  if s ≤ 59 then some { dt with second := s } else none

/-- chrono `Timelike::with_nanosecond` (values up to 2·10⁹ accommodate leap
seconds). -/
def LocalDateTime.with_nanosecond (dt : LocalDateTime) (n : Nat) : Option LocalDateTime :=
  if n < 2000000000 then some { dt with nanosecond := n } else none

/-- chrono `DateTime::timestamp`: whole seconds since the Unix epoch
(sub-second part truncated). -/
def LocalDateTime.timestamp (dt : LocalDateTime) : Int :=
  dt.day * 86400 + dt.hour * 3600 + dt.minute * 60 + dt.second - dt.offset

/-- `NewApiCostSegment::get_today_timestamps` (newapi_cost.rs lines 105-117):
zero out hour, minute, second and nanosecond via the fallible chrono setters,
falling back to `now` itself if any setter declines, and return
`(start_of_day.timestamp(), now.timestamp())`. -/
def get_today_timestamps (now : LocalDateTime) : Int × Int :=
  let start_of_day :=
    ((((now.with_hour 0).bind fun dt => dt.with_minute 0).bind fun dt =>
        dt.with_second 0).bind fun dt => dt.with_nanosecond 0).getD now
  (start_of_day.timestamp, now.timestamp)

/-- The query URL built by `fetch_today_cost` (newapi_cost.rs lines 129-140):
base query with the time window and `type=2`, plus `&token_name={name}` only
when a token-name filter is present and non-empty. -/
def build_url (base_url : String) (token_name : Option String)
    (start_timestamp end_timestamp : Int) : String :=
  let url := base_url ++ "/api/log/self/stat?start_timestamp=" ++
    toString start_timestamp ++ "&end_timestamp=" ++ toString end_timestamp ++
    "&type=2"
  match token_name with
  | some tn => if tn = "" then url else url ++ "&token_name=" ++ tn
  | none => url

/-- `NewApiCostSegment::get_timeout_from_config` (newapi_cost.rs lines
179-190). `loadResult` is the outcome of the fresh `Config::load().ok()`
performed at call time: the configuration read from disk, or `none` when the
file is unreadable. -/
def get_timeout_from_config (loadResult : Option Config) : Option Nat := do
  let config ← loadResult
  let segment_config ← config.segments.find? fun s => s.id == SegmentId.NewApiCost
  (segment_config.options "timeout").bind Json.as_u64

/-- `self.get_timeout_from_config().unwrap_or(5)` (newapi_cost.rs line 143):
the timeout actually used for the request, in seconds. -/
def resolved_timeout (loadResult : Option Config) : Nat :=
  (get_timeout_from_config loadResult).getD 5

/-- An HTTP response as seen by the segment: numeric status and a JSON body
(`Json.null` standing in for any body; bodies that are not the expected
shape simply fail to parse). -/
structure Response where
  status : Nat
  body : Json

/-- serde's handling of an `Option<i64>` field: missing or `null` is `None`;
a present non-integer value is a parse failure. -/
def parseOptIntField : Option Json → Option (Option Int)
  | none => some none
  | some Json.null => some none
  | some v => (Json.as_i64 v).map some

/-- `response.into_json::<NewApiStatResponse>()` (newapi_cost.rs line 165):
serde deserialization of the expected JSON shape
`{ success: bool, message: string, data: { quota: i64, rpm?, tpm? } }`. -/
def parseStatResponse (j : Json) : Option NewApiStatResponse := do
  let success ← (j.getField "success").bind Json.as_bool
  let message ← (j.getField "message").bind Json.as_str
  let d ← j.getField "data"
  let quota ← (d.getField "quota").bind Json.as_i64
  let rpm ← parseOptIntField (d.getField "rpm")
  let tpm ← parseOptIntField (d.getField "tpm")
  some ⟨success, message, ⟨quota, rpm, tpm⟩⟩

/-- `NewApiCostSegment::fetch_today_cost` (newapi_cost.rs lines 120-176).
The effects are passed explicitly: `loadResult` is the call-time
`Config::load().ok()` used only to resolve the timeout; `now` the current
local instant; `net timeout url` the network — `none` for a transport error
(including ureq's treatment of 4xx/5xx statuses as errors), `some response`
otherwise. -/
def NewApiCostSegment.fetch_today_cost (seg : NewApiCostSegment)
    (loadResult : Option Config) (now : LocalDateTime)
    (net : Nat → String → Option Response) : Option ℚ := do
  let base_url ← seg.base_url
  let _ ← seg.user_token
  let _ ← seg.user_id
  let ts := get_today_timestamps now
  let url := build_url base_url seg.token_name ts.1 ts.2
  let timeout_secs := resolved_timeout loadResult
  let response ← net timeout_secs url
  if response.status ≠ 200 then none
  else do
    let api ← parseStatResponse response.body
    if api.success then some (quotaCost api.data.quota) else none

/-- `Segment::collect` for `NewApiCostSegment` (newapi_cost.rs lines
194-220). The metadata's raw-cost entry uses the rational's string rendering
in place of Rust's `f64::to_string`. -/
def NewApiCostSegment.collect (seg : NewApiCostSegment)
    (loadResult : Option Config) (now : LocalDateTime)
    (net : Nat → String → Option Response) (_input : InputData) :
    Option SegmentData := do
  let cost ← seg.fetch_today_cost loadResult now net
  let primary := costPrimary cost
  let secondary := seg.provider.getD ""
  let metadata :=
    ("cost", toString cost) ::
      (match seg.provider with
       | some p => [("provider", p)]
       | none => [])
  some ⟨primary, secondary, metadata⟩

/-- `Segment::id` for `NewApiCostSegment` (newapi_cost.rs lines 222-224). -/
def NewApiCostSegment.id (_seg : NewApiCostSegment) : SegmentId :=
  SegmentId.NewApiCost

/-- Modelled from the spec: the walk of `collect_all_segments` over the
configured entries — the source file defining it is not in the snapshot.
Entries with `enabled = false` are skipped without invoking the segment; an
enabled entry's identity-tagged result is appended only when one is
produced. `collectFn` stands for constructing the entry's segment
implementation from its options and calling `collect`. -/
def collectSegments (collectFn : SegmentConfig → InputData → Option SegmentData)
    (input : InputData) : List SegmentConfig → List (SegmentId × SegmentData)
  | [] => []
  | sc :: rest =>
    if sc.enabled then
      match collectFn sc input with
      | some d => (sc.id, d) :: collectSegments collectFn input rest
      | none => collectSegments collectFn input rest
    else collectSegments collectFn input rest

/-- Modelled from the spec: `collect_all_segments(config, input)` walks the
configuration's segment entries in stored order. -/
def collect_all_segments (collectFn : SegmentConfig → InputData → Option SegmentData)
    (config : Config) (input : InputData) : List (SegmentId × SegmentData) :=
  collectSegments collectFn input config.segments

/-- Modelled from the spec: `StatusLineGenerator::generate` — each result
styled per the theme's rules keyed by its identity, joined with the theme's
separator; the source file defining it is not in the snapshot. -/
def generate (config : Config) (results : List (SegmentId × SegmentData)) : String :=
  String.intercalate config.theme.separator
    (results.map fun r => config.theme.style r.1 r.2)

/-- The five NewApi cost-segment CLI flags of the `Cli` struct (cli.rs lines
35-53). The unrelated mode flags are omitted; main.rs additionally consults a
`newapi_quota_per_unit` flag that the `Cli` struct does not declare, so it
cannot be supplied and is not modelled. -/
structure Cli where
  newapi_base_url : Option String
  newapi_user_token : Option String
  newapi_user_id : Option String
  newapi_token_name : Option String
  newapi_provider : Option String
deriving DecidableEq, Repr

/-- `HashMap::insert` on an option map: later inserts shadow earlier
bindings of the same key. -/
def insertOpt (key : String) (v : Json) (m : String → Option Json) :
    String → Option Json :=
  fun k => if k = key then some v else m k

/-- The five conditional option inserts of main.rs lines 120-144, applied to
one entry's option map. -/
def applyCliOptions (cli : Cli) (opts : String → Option Json) :
    String → Option Json :=
  let o := opts
  let o := match cli.newapi_base_url with
    | some v => insertOpt "base_url" (Json.str v) o
    | none => o
  let o := match cli.newapi_user_token with
    | some v => insertOpt "user_token" (Json.str v) o
    | none => o
  let o := match cli.newapi_user_id with
    | some v => insertOpt "user_id" (Json.str v) o
    | none => o
  let o := match cli.newapi_token_name with
    | some v => insertOpt "token_name" (Json.str v) o
    | none => o
  match cli.newapi_provider with
  | some v => insertOpt "provider" (Json.str v) o
  | none => o

/-- Replace the first list element satisfying `p` by its image under `f`
(`iter_mut().find(...)` followed by in-place mutation). -/
def updateFirst {α : Type} (p : α → Bool) (f : α → α) : List α → List α
  | [] => []
  | a :: rest => if p a then f a :: rest else a :: updateFirst p f rest

/-- The CLI override block of main.rs lines 107-151: when at least one cost
flag is supplied, the first segment entry with the `NewApiCost` identity has
each supplied flag's value inserted into its option map. -/
def applyOverrides (cli : Cli) (config : Config) : Config :=
  if cli.newapi_base_url.isSome || cli.newapi_user_token.isSome ||
      cli.newapi_user_id.isSome || cli.newapi_token_name.isSome ||
      cli.newapi_provider.isSome then
    { config with
        segments :=
          updateFirst (fun s => s.id == SegmentId.NewApiCost)
            (fun sc => { sc with options := applyCliOptions cli sc.options })
            config.segments }
  else config

/-- The spec's wording of the primary-text rule (spec §4.2): the currency
symbol followed by the amount to two decimal places, except that any amount
below 0.01 (including exactly zero) renders as the symbol followed by a
literal "0". Stated separately from `costPrimary` (the source's computation)
so the two can be compared. -/
def specPrimary (cost : ℚ) : String :=
  if cost < 1 / 100 then "¥" ++ "0" else "¥" ++ fmt2 cost

/-- The spec's wording of the CLI override (spec §6, main.rs lines 107-151):
each supplied flag's value overwrites the corresponding option key; every
other key is left unchanged. Stated separately from `applyCliOptions` (the
source's sequence of conditional inserts) so the two can be compared. -/
def overriddenOptions (cli : Cli) (opts : String → Option Json) :
    String → Option Json :=
  fun k =>
    if k = "base_url" then
      match cli.newapi_base_url with
      | some v => some (Json.str v)
      | none => opts k
    else if k = "user_token" then
      match cli.newapi_user_token with
      | some v => some (Json.str v)
      | none => opts k
    else if k = "user_id" then
      match cli.newapi_user_id with
      | some v => some (Json.str v)
      | none => opts k
    else if k = "token_name" then
      match cli.newapi_token_name with
      | some v => some (Json.str v)
      | none => opts k
    else if k = "provider" then
      match cli.newapi_provider with
      | some v => some (Json.str v)
      | none => opts k
    else opts k

/-- The conditions under which the spec says the timeout defaults (spec
§4.2): configuration unreadable, cost-segment entry absent, `timeout` key
absent, or its value not a non-negative integer. -/
def timeoutDefaultCondition (loadResult : Option Config) : Prop :=
  loadResult = none ∨
    ∃ config, loadResult = some config ∧
      ((config.segments.find? fun s => s.id == SegmentId.NewApiCost) = none ∨
        ∃ sc, (config.segments.find? fun s => s.id == SegmentId.NewApiCost) = some sc ∧
          (sc.options "timeout" = none ∨
            ∃ v, sc.options "timeout" = some v ∧ v.as_u64 = none))

/-- The response conditions the spec folds into "no result" (spec §4.2):
non-2xx status, a body that does not parse as the expected shape, or a
parsed body whose success flag is false. -/
def badResponse (r : Response) : Prop :=
  ¬(200 ≤ r.status ∧ r.status < 300) ∨ parseStatResponse r.body = none ∨
    ∃ api, parseStatResponse r.body = some api ∧ api.success = false

example : costPrimary (quotaCost 0) = "¥0" := by with_unfolding_all rfl
example : costPrimary (quotaCost 4000) = "¥0" := by with_unfolding_all rfl
example : costPrimary (quotaCost 12345) = "¥0.02" := by with_unfolding_all rfl
example : costPrimary (quotaCost 5000000) = "¥10.00" := by with_unfolding_all rfl
example : costPrimary (quotaCost 750000) = "¥1.50" := by with_unfolding_all rfl

/-- The source's primary-text condition `cost == 0.0 || cost < 0.01`
collapses to the spec's single threshold test, since zero is itself below
the threshold. -/
theorem costPrimary_eq_specPrimary (c : ℚ) : costPrimary c = specPrimary c := by
  unfold costPrimary specPrimary
  by_cases h : c < 1 / 100
  · rw [if_pos (Or.inr h), if_pos h]
    decide
  · have h0 : ¬(c = 0 ∨ c < 1 / 100) := by
      rintro (rfl | hlt)
      · exact h (by norm_num)
      · exact h hlt
    rw [if_neg h0, if_neg h]

/-- C1 counterexample: the claim says quota 12345 renders "¥0", but
12345/500000 = 0.02469 is not below the 0.01 threshold, so the code renders
"¥0.02". -/
theorem costPrimary_quota12345_ne_yen0 : costPrimary (quotaCost 12345) ≠ "¥0" := by
  have h : costPrimary (quotaCost 12345) = "¥0.02" := by with_unfolding_all rfl
  rw [h]
  decide

/-- C1 (amended): converting the returned quota by dividing by 500000 and
formatting yields: quota 0 → "¥0"; quota 4000 → "¥0"; quota 12345 →
"¥0.02"; quota 5000000 → "¥10.00"; quota 750000 → "¥1.50". -/
theorem costPrimary_claim_values :
    costPrimary (quotaCost 0) = "¥0" ∧ costPrimary (quotaCost 4000) = "¥0" ∧
      costPrimary (quotaCost 12345) = "¥0.02" ∧
      costPrimary (quotaCost 5000000) = "¥10.00" ∧
      costPrimary (quotaCost 750000) = "¥1.50" := by
  refine ⟨?_, ?_, ?_, ?_, ?_⟩ <;> with_unfolding_all rfl

/-- C2: for every cost amount produced by `fetch_today_cost`, the primary
display text of `collect` is the spec's format — the currency symbol
followed by the amount to two decimal places, except that any amount below
0.01 (including exactly zero) renders as the symbol followed by a literal
"0". -/
theorem collect_primary_matches_spec_format (seg : NewApiCostSegment)
    (loadResult : Option Config) (now : LocalDateTime)
    (net : Nat → String → Option Response) (input : InputData) :
    (seg.collect loadResult now net input).map SegmentData.primary
      = (seg.fetch_today_cost loadResult now net).map specPrimary := by
  cases hf : seg.fetch_today_cost loadResult now net with
  | none => simp [NewApiCostSegment.collect, hf]
  | some c => simp [NewApiCostSegment.collect, hf, costPrimary_eq_specPrimary]

/-- C3: when any of the endpoint base address, the authentication token or
the account identifier is absent, `collect` returns no result, for every
network behavior. -/
theorem collect_none_of_missing_credentials (seg : NewApiCostSegment)
    (loadResult : Option Config) (now : LocalDateTime)
    (net : Nat → String → Option Response) (input : InputData)
    (h : seg.base_url = none ∨ seg.user_token = none ∨ seg.user_id = none) :
    seg.collect loadResult now net input = none := by
  have hf : seg.fetch_today_cost loadResult now net = none := by
    unfold NewApiCostSegment.fetch_today_cost
    rcases h with h | h | h
    · simp [h]
    · cases hb : seg.base_url <;> simp [h]
    · cases hb : seg.base_url <;> cases ht : seg.user_token <;> simp [h]
  simp [NewApiCostSegment.collect, hf]

/-- A reference local instant for concrete checks. -/
def now0 : LocalDateTime := ⟨0, 0, 0, 0, 0, 0⟩

/-- A reference (empty) session snapshot for concrete checks. -/
def input0 : InputData := ⟨⟩

/-- A network that answers every request successfully with a well-formed
body, to show the missing-credential outcome ignores the network. -/
def netOk : Nat → String → Option Response :=
  fun _ _ => some ⟨200, Json.obj
    [("success", Json.bool true), ("message", Json.str ""),
      ("data", Json.obj [("quota", Json.int 750000)])]⟩

/-- C3 witness: the unconfigured segment yields no result even against an
always-successful network. -/
theorem collect_none_of_missing_credentials_checked :
    (NewApiCostSegment.new.base_url = none ∨
        NewApiCostSegment.new.user_token = none ∨
        NewApiCostSegment.new.user_id = none) ∧
      NewApiCostSegment.collect NewApiCostSegment.new none now0 netOk input0 = none :=
  ⟨Or.inl rfl,
    collect_none_of_missing_credentials NewApiCostSegment.new none now0 netOk input0
      (Or.inl rfl)⟩

/-- The aggregator walk equals the declarative description: filter to the
enabled entries, in stored order, then keep the identity-tagged results that
were produced. -/
theorem collectSegments_eq_filterMap
    (f : SegmentConfig → InputData → Option SegmentData) (input : InputData)
    (l : List SegmentConfig) :
    collectSegments f input l =
      (l.filter fun sc => sc.enabled).filterMap
        fun sc => (f sc input).map fun d => (sc.id, d) := by
  induction l with
  | nil => rfl
  | cons sc rest ih =>
    by_cases he : sc.enabled = true
    · cases hf : f sc input <;>
        simp [collectSegments, he, hf, List.filter_cons, List.filterMap_cons, ih]
    · simp [collectSegments, he, List.filter_cons, ih]

/-- C5: the aggregator's output is exactly the identity-tagged results of
entries that are both enabled and produced a result, in configuration
order; and the output never depends on what a disabled entry's segment
would do (a disabled entry is never invoked). -/
theorem collect_all_segments_characterization
    (collectFn : SegmentConfig → InputData → Option SegmentData)
    (config : Config) (input : InputData) :
    collect_all_segments collectFn config input
        = (config.segments.filter fun sc => sc.enabled).filterMap
            (fun sc => (collectFn sc input).map fun d => (sc.id, d)) ∧
      ∀ g : SegmentConfig → InputData → Option SegmentData,
        collect_all_segments
            (fun sc i => if sc.enabled then collectFn sc i else g sc i) config input
          = collect_all_segments collectFn config input := by
  constructor
  · exact collectSegments_eq_filterMap collectFn input config.segments
  · intro g
    unfold collect_all_segments
    rw [collectSegments_eq_filterMap, collectSegments_eq_filterMap]
    apply List.filterMap_congr
    intro sc hsc
    have he : sc.enabled = true := by
      have := List.mem_filter.mp hsc
      exact this.2
    simp [he]

/-- C7: the query window starts at the instant with hour, minute, second and
sub-second components zeroed, and ends at the instant itself, both in
seconds since epoch. -/
theorem get_today_timestamps_zeroes_time_components (now : LocalDateTime) :
    get_today_timestamps now =
      (LocalDateTime.timestamp
          { now with hour := 0, minute := 0, second := 0, nanosecond := 0 },
        now.timestamp) := by
  unfold get_today_timestamps LocalDateTime.with_hour LocalDateTime.with_minute
    LocalDateTime.with_second LocalDateTime.with_nanosecond
  simp

/-- C8: an empty result list renders as the empty line. -/
theorem generate_empty_results_empty_line (config : Config) :
    generate config [] = "" := rfl

/-- C10: an empty token-name filter yields the same query URL as an absent
filter — the `token_name` parameter is omitted — and hence the same fetch
outcome. -/
theorem empty_token_name_omitted_from_url (seg : NewApiCostSegment)
    (base : String) (start_ts end_ts : Int) (loadResult : Option Config)
    (now : LocalDateTime) (net : Nat → String → Option Response) :
    build_url base (some "") start_ts end_ts = build_url base none start_ts end_ts ∧
      NewApiCostSegment.fetch_today_cost { seg with token_name := some "" }
          loadResult now net
        = NewApiCostSegment.fetch_today_cost { seg with token_name := none }
            loadResult now net := by
  constructor
  · rfl
  · rfl

/-- C4: whenever every answer the network can give is a failing response —
non-2xx status, unparsable body, or success flag false — `collect` returns
no result (and no error: it is a total function into `Option`). -/
theorem collect_none_of_failed_response (seg : NewApiCostSegment)
    (loadResult : Option Config) (now : LocalDateTime)
    (net : Nat → String → Option Response) (input : InputData)
    (h : ∀ t u r, net t u = some r → badResponse r) :
    seg.collect loadResult now net input = none := by
  have hf : seg.fetch_today_cost loadResult now net = none := by
    unfold NewApiCostSegment.fetch_today_cost
    cases hb : seg.base_url with
    | none => rfl
    | some base =>
      cases ht : seg.user_token with
      | none => rfl
      | some tok =>
        cases hu : seg.user_id with
        | none => rfl
        | some uid =>
          dsimp only
          cases hn : net (resolved_timeout loadResult)
              (build_url base seg.token_name (get_today_timestamps now).1
                (get_today_timestamps now).2) with
          | none => simp [hn]
          | some r =>
            have hbad := h _ _ _ hn
            by_cases hs : r.status = 200
            · rcases hbad with hst | hp | ⟨api, hp, hsucc⟩
              · exact absurd (by rw [hs]; exact ⟨le_refl 200, by norm_num⟩) hst
              · simp [hn, hs, hp]
              · simp [hn, hs, hp, hsucc]
            · simp [hn, hs]
  simp [NewApiCostSegment.collect, hf]

/-- A configured segment, for the concrete failing-response check. -/
def seg500 : NewApiCostSegment :=
  ⟨some "http://example.test", some "token-value", some "1", none, none⟩

/-- A network that answers every request with HTTP 500. -/
def net500 : Nat → String → Option Response :=
  fun _ _ => some ⟨500, Json.null⟩

/-- C4 witness: a configured segment against a network that always answers
HTTP 500 yields no result. -/
theorem collect_none_of_failed_response_checked :
    (∀ t u r, net500 t u = some r → badResponse r) ∧
      NewApiCostSegment.collect seg500 none now0 net500 input0 = none := by
  have hb : ∀ t u r, net500 t u = some r → badResponse r := by
    intro t u r hr
    simp only [net500, Option.some.injEq] at hr
    subst hr
    exact Or.inl (by decide)
  exact ⟨hb, collect_none_of_failed_response seg500 none now0 net500 input0 hb⟩

/-- C6: the timeout used for the request is resolved from the call-time read
of the persisted configuration, and defaults to 5 seconds when that read
fails, the cost-segment entry or its `timeout` key is absent, or the value
is not a non-negative integer. -/
theorem resolved_timeout_defaults_to_five (loadResult : Option Config)
    (h : timeoutDefaultCondition loadResult) : resolved_timeout loadResult = 5 := by
  unfold resolved_timeout get_timeout_from_config
  rcases h with rfl | ⟨config, rfl, hfind | ⟨sc, hfind, hopt | ⟨v, hopt, hv⟩⟩⟩
  · rfl
  · simp [hfind]
  · simp [hfind, hopt]
  · simp [hfind, hopt, hv]

/-- C6 witness: an unreadable configuration resolves to the 5-second
default. -/
theorem resolved_timeout_defaults_to_five_checked :
    timeoutDefaultCondition none ∧ resolved_timeout none = 5 :=
  ⟨Or.inl rfl, resolved_timeout_defaults_to_five none (Or.inl rfl)⟩

/-- The source's sequence of conditional `HashMap` inserts equals the spec's
per-key description of the override. -/
theorem applyCliOptions_eq_overridden (cli : Cli) (opts : String → Option Json) :
    applyCliOptions cli opts = overriddenOptions cli opts := by
  funext k
  rcases cli with ⟨b, t, u, n, p⟩
  unfold applyCliOptions overriddenOptions insertOpt
  cases b <;> cases t <;> cases u <;> cases n <;> cases p <;> dsimp only <;>
    split_ifs <;> simp_all

/-- With no flag supplied, the spec-side override map is the original map. -/
theorem overriddenOptions_no_flags (opts : String → Option Json) :
    overriddenOptions ⟨none, none, none, none, none⟩ opts = opts := by
  funext k
  unfold overriddenOptions
  dsimp only
  split_ifs <;> rfl

/-- `updateFirst` only depends on the update function's values. -/
theorem updateFirst_congr {α : Type} (p : α → Bool) (f g : α → α)
    (h : ∀ a, f a = g a) : ∀ l : List α, updateFirst p f l = updateFirst p g l
  | [] => rfl
  | a :: rest => by
    unfold updateFirst
    rw [h a, updateFirst_congr p f g h rest]

/-- `updateFirst` with a pointwise-identity update leaves the list
unchanged. -/
theorem updateFirst_eq_self {α : Type} (p : α → Bool) (f : α → α)
    (h : ∀ a, f a = a) : ∀ l : List α, updateFirst p f l = l
  | [] => rfl
  | a :: rest => by
    unfold updateFirst
    rw [h a, updateFirst_eq_self p f h rest]
    split <;> rfl

/-- C9: applying the CLI overrides overwrites, in the first cost-segment
entry's option map, exactly the keys whose flags were supplied, and leaves
the theme, every other entry, and the entry's identity and enabled flag
unchanged. -/
theorem applyOverrides_overwrites_cost_options (cli : Cli) (config : Config) :
    (applyOverrides cli config).theme = config.theme ∧
      (applyOverrides cli config).segments =
        updateFirst (fun s => s.id == SegmentId.NewApiCost)
          (fun sc => { sc with options := overriddenOptions cli sc.options })
          config.segments := by
  rcases cli with ⟨b, t, u, n, p⟩
  by_cases hall : b = none ∧ t = none ∧ u = none ∧ n = none ∧ p = none
  · obtain ⟨rfl, rfl, rfl, rfl, rfl⟩ := hall
    have hseg : updateFirst (fun s => s.id == SegmentId.NewApiCost)
        (fun sc =>
          { sc with options := overriddenOptions ⟨none, none, none, none, none⟩ sc.options })
        config.segments = config.segments :=
      updateFirst_eq_self _ _ (fun sc => by rw [overriddenOptions_no_flags]) config.segments
    constructor
    · rfl
    · rw [hseg]
      rfl
  · have hg : (b.isSome || t.isSome || u.isSome || n.isSome || p.isSome) = true := by
      cases b <;> cases t <;> cases u <;> cases n <;> cases p <;> simp_all
    have happ : applyOverrides ⟨b, t, u, n, p⟩ config =
        { config with
            segments :=
              updateFirst (fun s => s.id == SegmentId.NewApiCost)
                (fun sc =>
                  { sc with options := applyCliOptions ⟨b, t, u, n, p⟩ sc.options })
                config.segments } := by
      unfold applyOverrides
      rw [if_pos hg]
    rw [happ]
    constructor
    · rfl
    · exact updateFirst_congr _ _ _
        (fun sc => by rw [applyCliOptions_eq_overridden]) config.segments
